import Mathlib

/-
Verification of the synchronization / cache-reconciliation engine of the
portman repository (src/Portman.ts).

The embedding models:
- PostmanService.createCollection / updateCollection / findCollectionByName
  (the Remote Collection Client),
- the .portman.cache identity cache (a JSON object mapping a collection
  name to an entry with name and uid),
- Portman.syncCollectionToPostman (the Sync Engine), including its
  retry-by-recursion on a failed update.

Remote transports are modelled as oracles: a ListResult for the listing
call and ServiceResp values for create/update, supplied per attempt by an
AttemptEnv.  The recursion of syncCollectionToPostman is modelled with
explicit fuel; a result of none means the recursion has not terminated
within the given fuel.  JavaScript string truthiness (undefined, null and
the empty string are falsy) is modelled by truthyStr.
-/

/-- Explicit status discriminator of every Postman API response as produced
by PostmanService: the string status field is either success or fail. -/
inductive Status where
  | success
  | fail
deriving DecidableEq, Repr

/-- The payload side of a service response, as far as the engine reads it:
data.collection.uid (used to refresh the cache) and data.error (printed on
failure).  Either may be absent. -/
structure ApiData where
  collectionUid : Option String
  errorMsg : Option String
deriving DecidableEq, Repr

/-- The parsed form of the JSON string returned by createCollection and
updateCollection: a status discriminator plus an optional data payload. -/
structure ServiceResp where
  status : Status
  data : Option ApiData
deriving DecidableEq, Repr

/-- data.collection.uid of a parsed service response (engine reads this to
refresh the cache entry). -/
def ServiceResp.collectionUid (r : ServiceResp) : Option String :=
  r.data.bind (fun d => d.collectionUid)

/-- data.error of a parsed service response (printed in the failure report). -/
def ServiceResp.errorPayload (r : ServiceResp) : Option String :=
  r.data.bind (fun d => d.errorMsg)

/-- Outcome of one axios call: either a 2xx response with data, or a thrown
error carrying an optional response body (error.response.data is absent for
a pure transport fault). -/
inductive TransportResult where
  | ok (respData : ApiData)
  | error (respData : Option ApiData)
deriving DecidableEq, Repr

/-- PostmanService.createCollection (Portman.ts lines 552-587): the axios
call is wrapped in try/catch; a success yields status success with the
response data, any thrown error yields status fail with
error.response.data.  No fault escapes the method. -/
def createCollection (t : TransportResult) : ServiceResp :=
  match t with
  | TransportResult.ok d => { status := Status.success, data := some d }
  | TransportResult.error p => { status := Status.fail, data := p }

/-- PostmanService.updateCollection (Portman.ts lines 589-624): identical
failure conversion to createCollection; the status discriminator is the
only failure classification the service produces. -/
def updateCollection (t : TransportResult) : ServiceResp :=
  match t with
  | TransportResult.ok d => { status := Status.success, data := some d }
  | TransportResult.error p => { status := Status.fail, data := p }

/-- One item of the remote listing (GET /collections): uid, an optional
name, and the updatedAt timestamp.  The timestamp is modelled as the
numeric value (milliseconds) that new Date(updatedAt) parses to. -/
structure RemoteSummary where
  uid : String
  name : Option String
  updatedAt : Nat
deriving DecidableEq, Repr

/-- Result of the listing transport: a response whose data.collections
field may be absent, or a thrown axios error with its message. -/
inductive ListResult where
  | ok (collections : Option (List RemoteSummary))
  | err (msg : String)
deriving DecidableEq, Repr

/-- The character class of the JavaScript regex White-space escape used in
name.replace, covering the ECMAScript WhiteSpace and LineTerminator sets. -/
def isJsWhitespace (c : Char) : Bool :=
  let n := c.toNat
  n = 9 || n = 10 || n = 11 || n = 12 || n = 13 || n = 32 ||
  n = 0xa0 || n = 0x1680 || (0x2000 ≤ n && n ≤ 0x200a) ||
  n = 0x2028 || n = 0x2029 || n = 0x202f || n = 0x205f ||
  n = 0x3000 || n = 0xfeff

/-- The normalized-name comparison key of findCollectionByName (line 646):
name.toLowerCase() followed by removing every whitespace character.
Char.toLower models the ASCII case fold. -/
def normalizeName (s : String) : String :=
  String.mk ((s.data.map Char.toLower).filter (fun c => !(isJsWhitespace c)))

/-- The filter predicate of findCollectionByName (lines 643-648): an item
without a name (or with the empty-string name, which is falsy in
JavaScript) is skipped; otherwise the normalized names are compared. -/
def nameMatches (collName : String) (o : RemoteSummary) : Bool :=
  match o.name with
  | none => false
  | some n =>
    if n = "" then false
    else if normalizeName n = normalizeName collName then true else false

/-- Stable insertion step of the descending sort by updatedAt used for
multiple matches (lines 655-661, comparator b - a on the parsed dates). -/
def insertByUpdatedAtDesc (s : RemoteSummary) : List RemoteSummary → List RemoteSummary
  | [] => [s]
  | t :: ts =>
    if t.updatedAt > s.updatedAt then t :: insertByUpdatedAtDesc s ts
    else s :: t :: ts

/-- Stable descending sort by updatedAt; ties keep the listing order, so
the first listed among equally-recent matches is first after the sort. -/
def sortByUpdatedAtDesc : List RemoteSummary → List RemoteSummary
  | [] => []
  | s :: ss => insertByUpdatedAtDesc s (sortByUpdatedAtDesc ss)

/-- The value findCollectionByName resolves to: the initial empty object
(no match), a matched listing item, or - on a thrown listing error - the
error converted to a string and returned as a plain value. -/
inductive FindResult where
  | empty
  | found (s : RemoteSummary)
  | errString (msg : String)
deriving DecidableEq, Repr

/-- Property access result.uid as the caller performs it: only a matched
summary carries a uid; the empty object and the error string do not. -/
def FindResult.uid : FindResult → Option String
  | FindResult.found s => some s.uid
  | FindResult.empty => none
  | FindResult.errString _ => none

/-- findCollectionByName's resolved value together with whether the
multiple-match warning was printed (line 662). -/
structure FindOutput where
  result : FindResult
  warned : Bool
deriving DecidableEq, Repr

/-- PostmanService.findCollectionByName (Portman.ts lines 626-675): fetch
the full listing (the API has no name filter), filter locally by the
normalized name, take a single match directly, sort multiple matches by
updatedAt descending and take the first (printing a warning), and on a
thrown listing error return the error as a string. -/
def findCollectionByName (collName : String) (res : ListResult) : FindOutput :=
  match res with
  | ListResult.err msg => { result := FindResult.errString msg, warned := false }
  | ListResult.ok none => { result := FindResult.empty, warned := false }
  | ListResult.ok (some collections) =>
    let matched := collections.filter (nameMatches collName)
    if matched.length = 1 then
      { result := match matched.head? with
                  | some s => FindResult.found s
                  | none => FindResult.empty
        warned := false }
    else if matched.length > 1 then
      { result := match (sortByUpdatedAtDesc matched).head? with
                  | some s => FindResult.found s
                  | none => FindResult.empty
        warned := true }
    else
      { result := FindResult.empty, warned := false }

/-- One value of the .portman.cache JSON object: the collection name again
plus the remote uid (data.collection.uid may be absent in the response the
entry was built from, so the stored uid is optional). -/
structure CacheEntry where
  name : String
  uid : Option String
deriving DecidableEq, Repr

/-- The in-memory cache: the parsed JSON object, a finite map from the
exact collection-name string to its entry. -/
abbrev Cache := List (String × CacheEntry)

/-- JavaScript property lookup portmanCache[collName]: exact string key,
no normalization. -/
def cacheLookup : Cache → String → Option CacheEntry
  | [], _ => none
  | (k, v) :: rest, key => if k = key then some v else cacheLookup rest key

/-- Object.assign({}, portmanCache, { [collName]: entry }): replace the
value at an existing key, or append the key. -/
def cachePut : Cache → String → CacheEntry → Cache
  | [], key, v => [(key, v)]
  | (k, w) :: rest, key, v =>
    if k = key then (key, v) :: rest else (k, w) :: cachePut rest key v

/-- delete portmanCache[collName]. -/
def cacheRemove (c : Cache) (key : String) : Cache :=
  c.filter (fun p => if p.1 = key then false else true)

/-- State of the .portman.cache file: absent, present but unparsable, or
present with a parsed mapping. -/
inductive CacheFileState where
  | missing
  | corrupt
  | content (c : Cache)
deriving DecidableEq, Repr

/-- Loading the cache (lines 440-445): readFileSync + JSON.parse inside
try/catch with an empty catch, so a missing or unparsable file leaves the
initial empty object in place and never raises. -/
def loadCache : CacheFileState → Cache
  | CacheFileState.content c => c
  | CacheFileState.missing => []
  | CacheFileState.corrupt => []

/-- JavaScript truthiness of an optional string: undefined/null and the
empty string are falsy. -/
def truthyStr : Option String → Option String
  | none => none
  | some s => if s = "" then none else some s

/-- The remote calls a sync makes, in order. -/
inductive Call where
  | list
  | update (uid : String)
  | create
deriving DecidableEq, Repr

/-- The structured outcome of a sync, as reported at lines 516-534: a
success after create, a success after update, or a failure carrying the
service's error payload. -/
inductive SyncOutcome where
  | created (uid : Option String)
  | updated (uid : Option String)
  | failed (errorPayload : Option String)
deriving DecidableEq, Repr

/-- The environment of one reconciliation attempt: the transport-level
responses the remote service gives to this attempt's listing, update and
create calls, plus whether the cache-file write succeeds. -/
structure AttemptEnv where
  listResp : ListResult
  updateResp : String → ServiceResp
  createResp : ServiceResp
  writeOk : Bool

/-- In-memory result of one pass of the syncPostman body (lines 439-512),
before the file write is applied: the remote calls made, the reported
outcome, whether line 486 re-enters syncCollectionToPostman, the in-memory
cache at the write site, and whether a cache-file write was attempted. -/
structure AttemptCore where
  calls : List Call
  outcome : SyncOutcome
  retry : Bool
  cacheAfter : Cache
  wrote : Bool
deriving DecidableEq, Repr

/-- Identity resolution (lines 447-453): a cache hit for the exact name is
used directly (even when its stored uid is absent); only a cache miss
calls findCollectionByName.  The result is passed through the JavaScript
truthiness test remoteCollection?.uid of line 455. -/
def resolveIdentity (collName : String) (env : AttemptEnv) (portmanCache : Cache) :
    Option String × List Call :=
  match cacheLookup portmanCache collName with
  | some entry => (truthyStr entry.uid, [])
  | none =>
    (truthyStr (FindResult.uid (findCollectionByName collName env.listResp).result),
     [Call.list])

/-- One pass of the cache-assisted path (lines 447-512), on the in-memory
cache.  Update path (455-487): call update; on status fail delete the
cache entry, on success merge the refreshed entry; a write is attempted in
both cases, and status fail additionally re-enters the whole sync.  Create
path (488-512): call create; only a success merges the new entry and
attempts a write. -/
def cacheAttemptCore (collName : String) (env : AttemptEnv) (portmanCache : Cache) :
    AttemptCore :=
  match resolveIdentity collName env portmanCache with
  | (some uid, calls0) =>
    let resp := env.updateResp uid
    if resp.status = Status.fail then
      { calls := calls0 ++ [Call.update uid]
        outcome := SyncOutcome.failed resp.errorPayload
        retry := true
        cacheAfter := cacheRemove portmanCache collName
        wrote := true }
    else
      { calls := calls0 ++ [Call.update uid]
        outcome := SyncOutcome.updated resp.collectionUid
        retry := false
        cacheAfter := cachePut portmanCache collName { name := collName, uid := resp.collectionUid }
        wrote := true }
  | (none, calls0) =>
    let resp := env.createResp
    if resp.status = Status.success then
      { calls := calls0 ++ [Call.create]
        outcome := SyncOutcome.created resp.collectionUid
        retry := false
        cacheAfter := cachePut portmanCache collName { name := collName, uid := resp.collectionUid }
        wrote := true }
    else
      { calls := calls0 ++ [Call.create]
        outcome := SyncOutcome.failed resp.errorPayload
        retry := false
        cacheAfter := portmanCache
        wrote := false }

/-- Result of one attempt including its effect on the cache file. -/
structure AttemptResult where
  calls : List Call
  outcome : SyncOutcome
  retry : Bool
  fileAfter : CacheFileState
  fileReads : Nat
  writesAttempted : Nat
deriving DecidableEq, Repr

/-- One attempt of the cache-assisted path including file effects: the
cache file is read once (lines 440-445); an attempted write replaces the
whole file when it succeeds, and is swallowed - leaving the file unchanged -
when it fails (lines 477-482 and 505-510). -/
def cacheAttempt (collName : String) (env : AttemptEnv) (file : CacheFileState) :
    AttemptResult :=
  let core := cacheAttemptCore collName env (loadCache file)
  { calls := core.calls
    outcome := core.outcome
    retry := core.retry
    fileAfter :=
      if core.wrote && env.writeOk then CacheFileState.content core.cacheAfter else file
    fileReads := 1
    writesAttempted := if core.wrote then 1 else 0 }

/-- Accumulated result of a whole sync call: all remote calls in order,
the final attempt's reported outcome, the final cache-file state, the
number of attempts, cache-file reads and attempted writes. -/
structure SyncResult where
  calls : List Call
  outcome : SyncOutcome
  fileAfter : CacheFileState
  attempts : Nat
  fileReads : Nat
  writesAttempted : Nat
deriving DecidableEq, Repr

/-- The retry-by-recursion of the cache-assisted path: line 486 re-enters
syncCollectionToPostman whenever the update reported status fail.  The
source recursion carries no bound; the fuel makes the model total, and a
result of none means the source would still be recursing after that many
attempts.  Attempt number i draws its responses from envs i. -/
def syncCache (collName : String) (envs : Nat → AttemptEnv) :
    Nat → Nat → CacheFileState → Option SyncResult
  | 0, _, _ => none
  | Nat.succ fuel, i, file =>
    let r := cacheAttempt collName (envs i) file
    if r.retry then
      (syncCache collName envs fuel (i + 1) r.fileAfter).map (fun rest =>
        { calls := r.calls ++ rest.calls
          outcome := rest.outcome
          fileAfter := rest.fileAfter
          attempts := rest.attempts + 1
          fileReads := r.fileReads + rest.fileReads
          writesAttempted := r.writesAttempted + rest.writesAttempted })
    else
      some { calls := r.calls
             outcome := r.outcome
             fileAfter := r.fileAfter
             attempts := 1
             fileReads := r.fileReads
             writesAttempted := r.writesAttempted }

/-- Portman.syncCollectionToPostman (lines 415-536) with syncPostman set.
A truthy postmanUid option (lines 433-436) pins the target: exactly one
update against it, no cache-file read or write, outcome reported from the
response status (lines 516-534).  Otherwise the cache-assisted path runs
(lines 439-513). -/
def syncCollectionToPostman (collName : String) (postmanUid : Option String)
    (envs : Nat → AttemptEnv) (fuel : Nat) (file : CacheFileState) : Option SyncResult :=
  match truthyStr postmanUid with
  | some uid =>
    let resp := (envs 0).updateResp uid
    some { calls := [Call.update uid]
           outcome :=
             if resp.status = Status.fail then SyncOutcome.failed resp.errorPayload
             else SyncOutcome.updated resp.collectionUid
           fileAfter := file
           attempts := 1
           fileReads := 0
           writesAttempted := 0 }
  | none => syncCache collName envs fuel 0 file

/-- Behavioral observation of a sync result: everything except the raw
cache-file representation, of which only the mapping it loads to is kept. -/
def syncObs (r : Option SyncResult) :
    Option (List Call × SyncOutcome × Nat × Nat × Nat × Cache) :=
  r.map (fun x =>
    (x.calls, x.outcome, x.attempts, x.fileReads, x.writesAttempted, loadCache x.fileAfter))

/- Concrete scenario data used by the theorems below. -/

/-- A persistently failing update response whose payload is an
authentication error, not a missing-identifier report. -/
def authFailResp : ServiceResp :=
  { status := Status.fail
    data := some { collectionUid := none, errorMsg := some "Unauthorized" } }

/-- A remote listing entry whose name matches the artifact name. -/
def c1Summary : RemoteSummary := { uid := "def", name := some "Billing API", updatedAt := 5 }

/-- Environment in which the listing always contains a match and every
update fails: the remote service is persistently rejecting updates. -/
def c1Env : AttemptEnv :=
  { listResp := ListResult.ok (some [c1Summary])
    updateResp := fun _ => authFailResp
    createResp := { status := Status.success, data := some { collectionUid := some "new", errorMsg := none } }
    writeOk := true }

/-- The same environment on every attempt. -/
def c1Envs : Nat → AttemptEnv := fun _ => c1Env

/-- A warm cache file holding a (stale) identifier for the artifact. -/
def c1WarmFile : CacheFileState :=
  CacheFileState.content [("Billing API", { name := "Billing API", uid := some "abc" })]

/-- Environment whose update call fails with an arbitrary error payload
and whose listing is empty. -/
def c2Env (e : Option String) : AttemptEnv :=
  { listResp := ListResult.ok (some [])
    updateResp := fun _ => { status := Status.fail, data := some { collectionUid := none, errorMsg := e } }
    createResp := { status := Status.success, data := none }
    writeOk := true }

/-- Environment with an empty remote listing and a failing create call. -/
def c3Env : AttemptEnv :=
  { listResp := ListResult.ok (some [])
    updateResp := fun _ => { status := Status.success, data := none }
    createResp := { status := Status.fail, data := some { collectionUid := none, errorMsg := some "Bad Request" } }
    writeOk := true }

/-- A remote listing entry carrying the empty string as its name. -/
def c8Summary : RemoteSummary := { uid := "u1", name := some "", updatedAt := 0 }

/-- A sample cache entry. -/
def sampleCacheEntry : CacheEntry := { name := "Billing API", uid := some "abc" }

/-- Two ambiguous listing entries: same normalized name, older timestamp
first. -/
def c5s1 : RemoteSummary := { uid := "a", name := some "billing api", updatedAt := 1 }

/-- The more recently updated of the two ambiguous entries. -/
def c5s2 : RemoteSummary := { uid := "b", name := some "BillingAPI", updatedAt := 2 }

/-- A third ambiguous entry tying the newest timestamp but listed after
c5s2: the stable sort must keep c5s2 first. -/
def c5s3 : RemoteSummary := { uid := "c", name := some "BILLING api", updatedAt := 2 }

/-- A non-matching listing entry that is newer than every match: it must
be ignored by the selection. -/
def c5s4 : RemoteSummary := { uid := "d", name := some "Other API", updatedAt := 9 }

/-- Environment whose listing contains three ambiguous entries (two tied
on the newest timestamp) and a newer non-matching entry. -/
def c5Env : AttemptEnv :=
  { listResp := ListResult.ok (some [c5s1, c5s2, c5s3, c5s4])
    updateResp := fun _ => { status := Status.success, data := none }
    createResp := { status := Status.success, data := none }
    writeOk := true }

/-- Environment for the warm-cache fast path: the update succeeds and
returns a refreshed identifier. -/
def c7Envs : Nat → AttemptEnv := fun _ =>
  { listResp := ListResult.ok none
    updateResp := fun _ =>
      { status := Status.success, data := some { collectionUid := some "abc2", errorMsg := none } }
    createResp := { status := Status.success, data := none }
    writeOk := true }

/-- Environment with an empty listing, a failing create and a failing
cache-file write. -/
def c3FailEnvNoWrite : AttemptEnv :=
  { listResp := ListResult.ok (some [])
    updateResp := fun _ => { status := Status.success, data := none }
    createResp := { status := Status.fail, data := some { collectionUid := none, errorMsg := some "Bad Request" } }
    writeOk := false }

/- Helper lemmas. -/

/-- One attempt over the empty cache file in the persistently-failing
environment: the miss triggers the listing, the match's identifier is
updated, the failure deletes the (absent) entry and requests a retry. -/
theorem cacheAttempt_c1_empty :
    cacheAttempt "Billing API" c1Env (CacheFileState.content []) =
      { calls := [Call.list, Call.update "def"]
        outcome := SyncOutcome.failed (some "Unauthorized")
        retry := true
        fileAfter := CacheFileState.content []
        fileReads := 1
        writesAttempted := 1 } := by
  decide

/-- In the persistently-failing environment the retry recursion never
terminates from the empty cache file, whatever the fuel. -/
theorem syncCache_c1_diverges : ∀ (fuel i : Nat),
    syncCache "Billing API" c1Envs fuel i (CacheFileState.content []) = none := by
  intro fuel
  induction fuel with
  | zero => intro i; rfl
  | succ n ih =>
    intro i
    simp only [syncCache, c1Envs, cacheAttempt_c1_empty]
    simp [ih (i + 1)]

/-- Claim C1: the spec requires that after an update failure the engine
re-enter identity resolution exactly once and, if that retry also fails,
report Failed with no further retries.  The source instead re-enters
syncCollectionToPostman on every status-fail update (line 486) with no
bound: starting from a warm cache whose identifier is stale, with a remote
service that keeps a matching listing entry but persistently rejects
updates, the recursion never reaches a terminal Failed report - for every
fuel bound the sync is still retrying. -/
theorem c1_unbounded_retry : ∀ fuel : Nat,
    syncCollectionToPostman "Billing API" none c1Envs fuel c1WarmFile = none := by
  intro fuel
  cases fuel with
  | zero => rfl
  | succ n =>
    have hstep : cacheAttempt "Billing API" c1Env c1WarmFile =
        { calls := [Call.update "abc"]
          outcome := SyncOutcome.failed (some "Unauthorized")
          retry := true
          fileAfter := CacheFileState.content []
          fileReads := 1
          writesAttempted := 1 } := by decide
    show syncCache "Billing API" c1Envs (n + 1) 0 c1WarmFile = none
    simp only [syncCache, c1Envs, hstep]
    simp [syncCache_c1_diverges n 1]

/-- Claim C2: the spec requires that only a RemoteNotFound-classified
update failure remove the cache entry, and that any other failure (auth,
validation, network) leave the cache untouched and report Failed.  The
source branches only on the binary status discriminator (line 464) and
never inspects the error payload: for EVERY error payload e - in
particular an authentication error - a status-fail update deletes the
cache entry for the artifact's name and re-enters the sync instead of
terminating with Failed. -/
theorem c2_removes_cache_on_any_update_failure : ∀ (e : Option String),
    (cacheAttempt "Billing API" (c2Env e) c1WarmFile).fileAfter = CacheFileState.content []
    ∧ (cacheAttempt "Billing API" (c2Env e) c1WarmFile).retry = true := by
  intro e
  exact ⟨rfl, rfl⟩

/-- Claim C3 counterexample: the claim says the cache is persisted exactly
once for every sync call regardless of outcome.  With an empty cache file,
an empty remote listing and a failing create, the sync reaches the
terminal Failed outcome having attempted zero cache-file writes. -/
theorem c3_counterexample :
    syncCollectionToPostman "Billing API" none (fun _ => c3Env) 5 CacheFileState.missing =
      some { calls := [Call.list, Call.create]
             outcome := SyncOutcome.failed (some "Bad Request")
             fileAfter := CacheFileState.missing
             attempts := 1
             fileReads := 1
             writesAttempted := 0 } := by
  decide

/-- Claim C8 counterexample: the claim says two names are matched if and
only if their normalized forms are equal.  A listing entry named by the
empty string has the same normalized form as the artifact name consisting
of a single space, yet the filter's falsy-name guard rejects it, so it is
not matched. -/
theorem c8_counterexample :
    normalizeName " " = normalizeName ""
    ∧ nameMatches " " c8Summary = false
    ∧ (findCollectionByName " " (ListResult.ok (some [c8Summary]))).result = FindResult.empty := by
  decide

/-- Claim C9: every remote-API failure during create or update is caught
and converted into a structured response carrying the binary status
discriminator and the service's error payload; no transport fault escapes,
and every response's status is either success or fail. -/
theorem c9_structured_failure : ∀ (p : Option ApiData) (t : TransportResult),
    createCollection (TransportResult.error p) = { status := Status.fail, data := p }
    ∧ updateCollection (TransportResult.error p) = { status := Status.fail, data := p }
    ∧ ((createCollection t).status = Status.success ∨ (createCollection t).status = Status.fail)
    ∧ ((updateCollection t).status = Status.success ∨ (updateCollection t).status = Status.fail) := by
  intro p t
  refine ⟨rfl, rfl, ?_, ?_⟩ <;> cases t <;> simp [createCollection, updateCollection]

/-- Claim C4: with a truthy postmanUid the engine performs exactly one
update call against that identifier - whatever the cache file contains -
reports Updated or Failed from the response status, reads the cache file
zero times and attempts zero cache-file writes, leaving the file exactly
as it was. -/
theorem c4_override_isolation : ∀ (collName uid : String) (envs : Nat → AttemptEnv)
    (fuel : Nat) (file : CacheFileState), uid ≠ "" →
    syncCollectionToPostman collName (some uid) envs fuel file =
      some { calls := [Call.update uid]
             outcome :=
               if ((envs 0).updateResp uid).status = Status.fail
               then SyncOutcome.failed (ServiceResp.errorPayload ((envs 0).updateResp uid))
               else SyncOutcome.updated (ServiceResp.collectionUid ((envs 0).updateResp uid))
             fileAfter := file
             attempts := 1
             fileReads := 0
             writesAttempted := 0 } := by
  intro collName uid envs fuel file h
  simp [syncCollectionToPostman, truthyStr, h]

/-- Witness for C4 at a concrete pinned identifier, warm cache and failing
update. -/
theorem c4_override_isolation_witness :
    syncCollectionToPostman "Billing API" (some "pinned") c1Envs 3 c1WarmFile =
      some { calls := [Call.update "pinned"]
             outcome := SyncOutcome.failed (some "Unauthorized")
             fileAfter := c1WarmFile
             attempts := 1
             fileReads := 0
             writesAttempted := 0 } := by
  exact (c4_override_isolation "Billing API" "pinned" c1Envs 3 c1WarmFile (by decide)).trans
    (by decide)

/-- The head of the stable descending sort of a non-empty list is its
first element of maximal updatedAt: it belongs to the list, bounds every
element's timestamp, and every element listed before it is strictly
older. -/
theorem sortByUpdatedAtDesc_head : ∀ (x : RemoteSummary) (xs : List RemoteSummary),
    ∃ h rest pre post, sortByUpdatedAtDesc (x :: xs) = h :: rest
      ∧ x :: xs = pre ++ h :: post
      ∧ (∀ t ∈ x :: xs, t.updatedAt ≤ h.updatedAt)
      ∧ (∀ t ∈ pre, t.updatedAt < h.updatedAt) := by
  intro x xs
  induction xs generalizing x with
  | nil =>
    refine ⟨x, [], [], [], rfl, rfl, ?_, ?_⟩
    · intro t ht
      simp only [List.mem_singleton] at ht
      subst ht
      exact Nat.le_refl _
    · intro t ht
      simp at ht
  | cons y ys ih =>
    obtain ⟨h, rest, pre, post, hsort, hdec, hmax, hpre⟩ := ih y
    have hstep : sortByUpdatedAtDesc (x :: y :: ys) =
        insertByUpdatedAtDesc x (sortByUpdatedAtDesc (y :: ys)) := rfl
    by_cases hcmp : x.updatedAt < h.updatedAt
    · refine ⟨h, insertByUpdatedAtDesc x rest, x :: pre, post, ?_, ?_, ?_, ?_⟩
      · rw [hstep, hsort]
        simp only [insertByUpdatedAtDesc]
        rw [if_pos hcmp]
      · rw [hdec]
        rfl
      · intro t ht
        rcases List.mem_cons.mp ht with h1 | h2
        · subst h1; exact Nat.le_of_lt hcmp
        · exact hmax t h2
      · intro t ht
        rcases List.mem_cons.mp ht with h1 | h2
        · subst h1; exact hcmp
        · exact hpre t h2
    · have hge : h.updatedAt ≤ x.updatedAt := Nat.not_lt.mp hcmp
      refine ⟨x, h :: rest, [], y :: ys, ?_, rfl, ?_, ?_⟩
      · rw [hstep, hsort]
        simp only [insertByUpdatedAtDesc]
        rw [if_neg hcmp]
      · intro t ht
        rcases List.mem_cons.mp ht with h1 | h2
        · subst h1; exact Nat.le_refl _
        · exact Nat.le_trans (hmax t h2) hge
      · intro t ht
        simp at ht

/-- Claim C5: for every remote listing with more than one summary whose
normalized name matches the artifact's name - any number of matches, any
interleaved non-matching entries, ties allowed - findCollectionByName
flags the ambiguity warning and selects exactly the first match of
maximal updatedAt (the head of the stable descending sort: greatest
timestamp, first listed winning ties, so for two matches with T1 < T2 the
T2 entry is selected); on a cache miss the engine then proceeds to update
that identity. -/
theorem c5_ambiguity_tiebreak : ∀ (collName : String) (collections : List RemoteSummary)
    (env : AttemptEnv) (file : CacheFileState),
    1 < (collections.filter (nameMatches collName)).length →
    (findCollectionByName collName (ListResult.ok (some collections))).warned = true
    ∧ ∃ s pre post,
        (findCollectionByName collName (ListResult.ok (some collections))).result =
          FindResult.found s
        ∧ collections.filter (nameMatches collName) = pre ++ s :: post
        ∧ (∀ t ∈ collections.filter (nameMatches collName), t.updatedAt ≤ s.updatedAt)
        ∧ (∀ t ∈ pre, t.updatedAt < s.updatedAt)
        ∧ (env.listResp = ListResult.ok (some collections) →
            cacheLookup (loadCache file) collName = none →
            s.uid ≠ "" →
            (cacheAttempt collName env file).calls = [Call.list, Call.update s.uid]) := by
  intro collName collections env file hm
  have hlen1 : ¬ (collections.filter (nameMatches collName)).length = 1 := by omega
  cases hmc : collections.filter (nameMatches collName) with
  | nil =>
    rw [hmc] at hm
    simp at hm
  | cons m0 mrest =>
    obtain ⟨h, rest, pre, post, hsort, hdec, hmax, hpre⟩ := sortByUpdatedAtDesc_head m0 mrest
    have hfind : findCollectionByName collName (ListResult.ok (some collections)) =
        { result := FindResult.found h, warned := true } := by
      simp only [findCollectionByName]
      rw [if_neg hlen1, if_pos hm, hmc, hsort]
      rfl
    refine ⟨by rw [hfind], h, pre, post, by rw [hfind], hdec, ?_, hpre, ?_⟩
    · intro t ht
      exact hmax t ht
    · intro hl hc hu
      cases hst : (env.updateResp h.uid).status <;>
        simp [cacheAttempt, cacheAttemptCore, resolveIdentity, hc, hl, hfind, FindResult.uid,
          truthyStr, hu, hst]

/-- Witness for C5: a concrete four-entry listing with three matches, two
of them tied on the newest timestamp and a newer non-matching entry; the
first-listed of the tied matches is selected and updated. -/
theorem c5_ambiguity_tiebreak_witness :
    (findCollectionByName "Billing API" (ListResult.ok (some [c5s1, c5s2, c5s3, c5s4]))).warned =
      true
    ∧ (findCollectionByName "Billing API" (ListResult.ok (some [c5s1, c5s2, c5s3, c5s4]))).result =
      FindResult.found c5s2
    ∧ (cacheAttempt "Billing API" c5Env CacheFileState.missing).calls =
      [Call.list, Call.update "b"] := by
  obtain ⟨hw, s, pre, post, hres, hdecomp, hmax, hpre, hupd⟩ :=
    c5_ambiguity_tiebreak "Billing API" [c5s1, c5s2, c5s3, c5s4] c5Env CacheFileState.missing
      (by decide)
  refine ⟨hw, by decide, ?_⟩
  have hs : s = c5s2 := by
    have hev : (findCollectionByName "Billing API"
        (ListResult.ok (some [c5s1, c5s2, c5s3, c5s4]))).result = FindResult.found c5s2 := by
      decide
    rw [hres] at hev
    injection hev with hs2
  have hcalls := hupd rfl (by decide) (by rw [hs]; decide)
  rw [hs] at hcalls
  exact hcalls

/-- Claim C7: a cache hit with a truthy stored identifier skips the
listing entirely; when the update then succeeds, the whole sync performs
exactly one remote call - the update against the cached identifier - in a
single attempt, and refreshes the entry. -/
theorem c7_warm_cache_fast_path : ∀ (collName : String) (cache : Cache) (entry : CacheEntry)
    (uid : String) (envs : Nat → AttemptEnv) (fuel : Nat),
    cacheLookup cache collName = some entry →
    truthyStr entry.uid = some uid →
    ((envs 0).updateResp uid).status = Status.success →
    syncCollectionToPostman collName none envs (fuel + 1) (CacheFileState.content cache) =
      some { calls := [Call.update uid]
             outcome := SyncOutcome.updated (ServiceResp.collectionUid ((envs 0).updateResp uid))
             fileAfter :=
               if (envs 0).writeOk then
                 CacheFileState.content (cachePut cache collName
                   { name := collName, uid := ServiceResp.collectionUid ((envs 0).updateResp uid) })
               else CacheFileState.content cache
             attempts := 1
             fileReads := 1
             writesAttempted := 1 } := by
  intro collName cache entry uid envs fuel h1 h2 h3
  show syncCache collName envs (fuel + 1) 0 (CacheFileState.content cache) = _
  simp [syncCache, cacheAttempt, cacheAttemptCore, resolveIdentity, loadCache, h1, h2, h3]

/-- Witness for C7 at a concrete warm cache with a succeeding update. -/
theorem c7_warm_cache_fast_path_witness :
    syncCollectionToPostman "Billing API" none c7Envs 1
        (CacheFileState.content [("Billing API", sampleCacheEntry)]) =
      some { calls := [Call.update "abc"]
             outcome := SyncOutcome.updated (some "abc2")
             fileAfter := CacheFileState.content
               [("Billing API", { name := "Billing API", uid := some "abc2" })]
             attempts := 1
             fileReads := 1
             writesAttempted := 1 } := by
  exact (c7_warm_cache_fast_path "Billing API" [("Billing API", sampleCacheEntry)]
    sampleCacheEntry "abc" c7Envs 0 (by decide) (by decide) (by decide)).trans (by decide)

/-- Claim C10: a thrown listing transport error is returned by
findCollectionByName as a plain string value rather than raised or turned
into a failure outcome; that value carries no uid, so on a cache miss the
engine behaves as with zero matches and proceeds to create a brand-new
collection. -/
theorem c10_list_error_creates : ∀ (collName msg : String) (env : AttemptEnv)
    (file : CacheFileState),
    env.listResp = ListResult.err msg →
    cacheLookup (loadCache file) collName = none →
    (findCollectionByName collName (ListResult.err msg)).result = FindResult.errString msg
    ∧ FindResult.uid (FindResult.errString msg) = none
    ∧ (cacheAttempt collName env file).calls = [Call.list, Call.create]
    ∧ (cacheAttempt collName env file).outcome =
        (if env.createResp.status = Status.success
         then SyncOutcome.created (ServiceResp.collectionUid env.createResp)
         else SyncOutcome.failed (ServiceResp.errorPayload env.createResp)) := by
  intro collName msg env file hl hc
  refine ⟨rfl, rfl, ?_, ?_⟩ <;>
    cases hst : env.createResp.status <;>
      simp [cacheAttempt, cacheAttemptCore, resolveIdentity, hc, hl, findCollectionByName,
        FindResult.uid, truthyStr, hst]

/-- Witness for C10: concrete failing listing, empty cache, successful
create. -/
theorem c10_list_error_creates_witness :
    (findCollectionByName "Billing API" (ListResult.err "Error: getaddrinfo ENOTFOUND")).result =
      FindResult.errString "Error: getaddrinfo ENOTFOUND"
    ∧ (cacheAttempt "Billing API"
        { listResp := ListResult.err "Error: getaddrinfo ENOTFOUND"
          updateResp := fun _ => { status := Status.success, data := none }
          createResp := { status := Status.success, data := some { collectionUid := some "new", errorMsg := none } }
          writeOk := true } CacheFileState.missing).calls = [Call.list, Call.create] := by
  have h := c10_list_error_creates "Billing API" "Error: getaddrinfo ENOTFOUND"
    { listResp := ListResult.err "Error: getaddrinfo ENOTFOUND"
      updateResp := fun _ => { status := Status.success, data := none }
      createResp := { status := Status.success, data := some { collectionUid := some "new", errorMsg := none } }
      writeOk := true } CacheFileState.missing rfl (by decide)
  exact ⟨h.1, h.2.2.1⟩

/-- Identity resolution makes no remote call on a cache hit and exactly
the listing call on a miss. -/
theorem resolveIdentity_calls : ∀ (collName : String) (env : AttemptEnv) (c : Cache),
    (resolveIdentity collName env c).2 = [] ∨ (resolveIdentity collName env c).2 = [Call.list] := by
  intro collName env c
  unfold resolveIdentity
  cases cacheLookup c collName <;> simp

/-- Shape of one attempt: it either ends in an update call and attempts a
write in every case, or ends in a create call and attempts a write exactly
when the create succeeded. -/
theorem cacheAttemptCore_cases : ∀ (collName : String) (env : AttemptEnv) (c : Cache),
    ∃ calls0, (calls0 = [] ∨ calls0 = [Call.list]) ∧
      ((∃ uid, (cacheAttemptCore collName env c).calls = calls0 ++ [Call.update uid]
          ∧ (cacheAttemptCore collName env c).wrote = true)
       ∨ ((cacheAttemptCore collName env c).calls = calls0 ++ [Call.create]
          ∧ (cacheAttemptCore collName env c).wrote =
              (if env.createResp.status = Status.success then true else false))) := by
  intro collName env c
  rcases hre : resolveIdentity collName env c with ⟨ouid, calls0⟩
  refine ⟨calls0, ?_, ?_⟩
  · have h := resolveIdentity_calls collName env c
    rw [hre] at h
    exact h
  · cases ouid with
    | some uid =>
      left
      refine ⟨uid, ?_, ?_⟩ <;> simp only [cacheAttemptCore, hre] <;> split <;> rfl
    | none =>
      right
      constructor <;> simp only [cacheAttemptCore, hre] <;> split <;> simp_all

/-- Claim C3 amended: each reconciliation attempt writes the cache file at
most once, and the write happens per attempt rather than once per sync
call: every attempt ending in an update call attempts exactly one write
(whatever the update's outcome), an attempt ending in a create call
attempts one write exactly when the create succeeded and none when it
failed, and a failing write is swallowed, leaving the file unchanged while
the attempt still completes. -/
theorem c3_amended_at_most_one_write : ∀ (collName : String) (env : AttemptEnv)
    (file : CacheFileState),
    (cacheAttempt collName env file).writesAttempted ≤ 1
    ∧ ((∃ u, Call.update u ∈ (cacheAttempt collName env file).calls) →
        (cacheAttempt collName env file).writesAttempted = 1)
    ∧ (Call.create ∈ (cacheAttempt collName env file).calls →
        (cacheAttempt collName env file).writesAttempted =
          (if env.createResp.status = Status.success then 1 else 0))
    ∧ (env.writeOk = false → (cacheAttempt collName env file).fileAfter = file) := by
  intro collName env file
  obtain ⟨calls0, hc0, hcase⟩ := cacheAttemptCore_cases collName env (loadCache file)
  have hw : (cacheAttempt collName env file).writesAttempted =
      (if (cacheAttemptCore collName env (loadCache file)).wrote then 1 else 0) := rfl
  have hcalls : (cacheAttempt collName env file).calls =
      (cacheAttemptCore collName env (loadCache file)).calls := rfl
  have hfa : (cacheAttempt collName env file).fileAfter =
      (if (cacheAttemptCore collName env (loadCache file)).wrote && env.writeOk
       then CacheFileState.content (cacheAttemptCore collName env (loadCache file)).cacheAfter
       else file) := rfl
  refine ⟨?_, ?_, ?_, ?_⟩
  · rw [hw]; split <;> simp
  · rintro ⟨u, hu⟩
    rw [hw]
    rcases hcase with ⟨uid, hcl, hwr⟩ | ⟨hcl, hwr⟩
    · rw [hwr]; rfl
    · rw [hcalls, hcl] at hu
      rcases hc0 with h0 | h0 <;> subst h0 <;> simp at hu
  · intro hcr
    rw [hw]
    rcases hcase with ⟨uid, hcl, hwr⟩ | ⟨hcl, hwr⟩
    · rw [hcalls, hcl] at hcr
      rcases hc0 with h0 | h0 <;> subst h0 <;> simp at hcr
    · rw [hwr]
      split <;> rfl
  · intro hwo
    rw [hfa, hwo]
    simp

/-- Witness for the amended C3: failed create with a failing write leaves
the file unchanged and attempts at most one write. -/
theorem c3_amended_at_most_one_write_witness :
    (cacheAttempt "Billing API" c3FailEnvNoWrite CacheFileState.missing).fileAfter =
      CacheFileState.missing
    ∧ (cacheAttempt "Billing API" c3FailEnvNoWrite CacheFileState.missing).writesAttempted ≤ 1 := by
  have h := c3_amended_at_most_one_write "Billing API" c3FailEnvNoWrite CacheFileState.missing
  exact ⟨h.2.2.2 rfl, h.1⟩

/-- Claim C8 amended: a listing entry is matched if and only if it carries
a non-empty name whose normalized form (whitespace removed, lower-cased)
equals the normalized artifact name; the cache key, by contrast, is stored
and looked up exactly as given - a lookup only ever hits an entry stored
under the literal same key, a stored entry is found again under its exact
key, and a normalized variant of the key misses. -/
theorem c8_amended_matching : ∀ (collName : String) (o : RemoteSummary),
    (nameMatches collName o = true ↔
      ∃ n, o.name = some n ∧ n ≠ "" ∧ normalizeName n = normalizeName collName)
    ∧ (∀ (c : Cache) (k : String) (v : CacheEntry), cacheLookup c k = some v → (k, v) ∈ c)
    ∧ (∀ (c : Cache) (k : String) (v : CacheEntry), cacheLookup (cachePut c k v) k = some v)
    ∧ cacheLookup [("Billing API", sampleCacheEntry)] "billingapi" = none
    ∧ cacheLookup [("Billing API", sampleCacheEntry)] "Billing API" = some sampleCacheEntry := by
  intro collName o
  refine ⟨?_, ?_, ?_, by decide, by decide⟩
  · rcases o with ⟨u, oname, t⟩
    cases oname with
    | none => simp [nameMatches]
    | some n =>
      by_cases hn : n = ""
      · subst hn; simp [nameMatches]
      · by_cases he : normalizeName n = normalizeName collName
        · simp [nameMatches, hn, he]
        · simp [nameMatches, hn, he]
  · intro c k v
    induction c with
    | nil => intro h; simp [cacheLookup] at h
    | cons p rest ih =>
      rcases p with ⟨k1, v1⟩
      intro h
      by_cases hk : k1 = k
      · rw [cacheLookup, if_pos hk] at h
        subst hk
        exact (Option.some.injEq _ _ ▸ h) ▸ List.mem_cons_self _ _
      · rw [cacheLookup, if_neg hk] at h
        exact List.mem_cons_of_mem _ (ih h)
  · intro c k v
    induction c with
    | nil => simp [cachePut, cacheLookup]
    | cons p rest ih =>
      rcases p with ⟨k1, v1⟩
      by_cases hk : k1 = k
      · simp [cachePut, hk, cacheLookup]
      · simp [cachePut, hk, cacheLookup, ih]

/-- Witness for the amended C8: a case-and-whitespace variant of the name
is matched in the listing, and an exact-key cache lookup hits. -/
theorem c8_amended_matching_witness :
    nameMatches "Billing API" { uid := "x", name := some "billing api", updatedAt := 0 } = true
    ∧ ("Billing API", sampleCacheEntry) ∈ ([("Billing API", sampleCacheEntry)] : Cache) := by
  have h := c8_amended_matching "Billing API"
    { uid := "x", name := some "billing api", updatedAt := 0 }
  exact ⟨h.1.mpr ⟨"billing api", rfl, by decide, by decide⟩, h.2.1 _ _ _ (by decide)⟩

/-- An attempt depends on the cache file only through the mapping it loads
to: two file states loading to the same mapping produce the same calls,
outcome, retry decision, counters, and resulting mapping. -/
theorem cacheAttempt_obs : ∀ (collName : String) (env : AttemptEnv) (f1 f2 : CacheFileState),
    loadCache f1 = loadCache f2 →
    (cacheAttempt collName env f1).calls = (cacheAttempt collName env f2).calls
    ∧ (cacheAttempt collName env f1).outcome = (cacheAttempt collName env f2).outcome
    ∧ (cacheAttempt collName env f1).retry = (cacheAttempt collName env f2).retry
    ∧ (cacheAttempt collName env f1).fileReads = (cacheAttempt collName env f2).fileReads
    ∧ (cacheAttempt collName env f1).writesAttempted = (cacheAttempt collName env f2).writesAttempted
    ∧ loadCache (cacheAttempt collName env f1).fileAfter =
        loadCache (cacheAttempt collName env f2).fileAfter := by
  intro collName env f1 f2 h
  refine ⟨?_, ?_, ?_, rfl, ?_, ?_⟩
  · show (cacheAttemptCore collName env (loadCache f1)).calls =
      (cacheAttemptCore collName env (loadCache f2)).calls
    rw [h]
  · show (cacheAttemptCore collName env (loadCache f1)).outcome =
      (cacheAttemptCore collName env (loadCache f2)).outcome
    rw [h]
  · show (cacheAttemptCore collName env (loadCache f1)).retry =
      (cacheAttemptCore collName env (loadCache f2)).retry
    rw [h]
  · show (if (cacheAttemptCore collName env (loadCache f1)).wrote then 1 else 0) =
      (if (cacheAttemptCore collName env (loadCache f2)).wrote then 1 else 0)
    rw [h]
  · show loadCache (if (cacheAttemptCore collName env (loadCache f1)).wrote && env.writeOk
        then CacheFileState.content (cacheAttemptCore collName env (loadCache f1)).cacheAfter
        else f1) =
      loadCache (if (cacheAttemptCore collName env (loadCache f2)).wrote && env.writeOk
        then CacheFileState.content (cacheAttemptCore collName env (loadCache f2)).cacheAfter
        else f2)
    rw [h]
    cases hw : (cacheAttemptCore collName env (loadCache f2)).wrote && env.writeOk <;>
      simp [hw, h]

/-- The whole retry recursion depends on the starting cache file only
through the mapping it loads to. -/
theorem syncCache_obs : ∀ (collName : String) (envs : Nat → AttemptEnv) (fuel i : Nat)
    (f1 f2 : CacheFileState), loadCache f1 = loadCache f2 →
    syncObs (syncCache collName envs fuel i f1) = syncObs (syncCache collName envs fuel i f2) := by
  intro collName envs fuel
  induction fuel with
  | zero => intro i f1 f2 h; rfl
  | succ n ih =>
    intro i f1 f2 h
    obtain ⟨hcalls, houtcome, hretry, hreads, hwrites, hfile⟩ :=
      cacheAttempt_obs collName (envs i) f1 f2 h
    simp only [syncCache]
    by_cases hr : (cacheAttempt collName (envs i) f1).retry = true
    · rw [if_pos hr, if_pos (hretry ▸ hr)]
      have hrec := ih (i + 1) (cacheAttempt collName (envs i) f1).fileAfter
        (cacheAttempt collName (envs i) f2).fileAfter hfile
      cases h1 : syncCache collName envs n (i + 1) (cacheAttempt collName (envs i) f1).fileAfter with
      | none =>
        cases h2 : syncCache collName envs n (i + 1) (cacheAttempt collName (envs i) f2).fileAfter with
        | none => rfl
        | some r2 => rw [h1, h2] at hrec; simp [syncObs] at hrec
      | some r1 =>
        cases h2 : syncCache collName envs n (i + 1) (cacheAttempt collName (envs i) f2).fileAfter with
        | none => rw [h1, h2] at hrec; simp [syncObs] at hrec
        | some r2 =>
          rw [h1, h2] at hrec
          simp only [syncObs, Option.map_some', Option.some.injEq, Prod.mk.injEq] at hrec
          obtain ⟨hc, ho, ha, hfr, hwa, hlf⟩ := hrec
          simp [syncObs, hcalls, hc, ho, ha, hreads, hfr, hwrites, hwa, hlf]
    · have hr2 : ¬ (cacheAttempt collName (envs i) f2).retry = true := by
        rw [← hretry]; exact hr
      rw [if_neg hr, if_neg hr2]
      simp [syncObs, hcalls, houtcome, hreads, hwrites, hfile]

/-- Claim C6: loading a missing or unparsable cache file yields the empty
mapping without raising, and the subsequent sync - on either path -
behaves exactly as a sync started from a file holding the empty mapping:
same remote calls, same outcome, same attempt and write counts, same
resulting cache mapping. -/
theorem c6_corruption_tolerance :
    loadCache CacheFileState.missing = []
    ∧ loadCache CacheFileState.corrupt = []
    ∧ ∀ (collName : String) (postmanUid : Option String) (envs : Nat → AttemptEnv) (fuel : Nat),
        syncObs (syncCollectionToPostman collName postmanUid envs fuel CacheFileState.missing) =
          syncObs (syncCollectionToPostman collName postmanUid envs fuel
            (CacheFileState.content []))
        ∧ syncObs (syncCollectionToPostman collName postmanUid envs fuel CacheFileState.corrupt) =
          syncObs (syncCollectionToPostman collName postmanUid envs fuel
            (CacheFileState.content [])) := by
  refine ⟨rfl, rfl, ?_⟩
  intro collName postmanUid envs fuel
  constructor <;>
  · unfold syncCollectionToPostman
    cases htu : truthyStr postmanUid with
    | some uid => simp [syncObs, loadCache]
    | none => exact syncCache_obs collName envs fuel 0 _ _ rfl
